import Mathlib

/-!
Shallow embedding of the demo notebook `sandbox/xray/demo_xray.ipynb`.

The notebook loads a cached archive holding a list of scene identifier
strings (`image_IDs`) and a three-dimensional 16-bit integer container `Y`
with axes (band, time, column), derives the three label sequences
(`band_names`, `dates`, `cols`), builds a labeled array `dat` from them,
and performs the two-stage label-based selection
`dat.sel(bands='Blue').sel(col=100)`.

The labeled-array library and the datetime parser are third-party
collaborators; their behavior at the call sites used here is modelled
from the spec's description of their lookup and parsing semantics.
-/

set_option maxRecDepth 100000

namespace DemoXray

/-- Ordinal calendar date: a year together with a day-of-year number, the
value produced by parsing a string in year-plus-day-of-year format. -/
structure Date where
  year : Nat
  doy : Nat
deriving DecidableEq

/-- Gregorian leap-year test. -/
def isLeap (y : Nat) : Bool :=
  (y % 4 == 0 && y % 100 != 0) || (y % 400 == 0)

/-- Number of days in a Gregorian year. -/
def daysInYear (y : Nat) : Nat :=
  if isLeap y then 366 else 365

/-- Validity of an ordinal date: the day-of-year falls inside the year. -/
def Date.valid (d : Date) : Prop :=
  1 ≤ d.doy ∧ d.doy ≤ daysInYear d.year

/-- Numeric value of a list of decimal digit characters. -/
def digitsToNat (cs : List Char) : Nat :=
  cs.foldl (fun a c => 10 * a + (c.toNat - 48)) 0

/-- Python slice `s[9:16]` used by the notebook: the characters at offsets
9 through 15, fewer when the string is shorter. -/
def extractDateStr (s : String) : String :=
  String.mk ((s.data.drop 9).take 7)

/-- Modelled from the spec: the third-party datetime parser applied with the
year-plus-day-of-year format string. It accepts exactly a 4-digit year
followed by a 3-digit day-of-year that falls inside that year, and fails
(returns `none`) on any other input. -/
def parseYJ (s : String) : Option Date :=
  if s.data.length = 7 ∧ s.data.all Char.isDigit = true then
    if 1 ≤ digitsToNat (s.data.drop 4) ∧
        digitsToNat (s.data.drop 4) ≤ daysInYear (digitsToNat (s.data.take 4))
      then some ⟨digitsToNat (s.data.take 4), digitsToNat (s.data.drop 4)⟩
    else none
  else none

/-- Date extraction for one scene identifier, as authored in the notebook:
slice the identifier at the fixed offset and parse the result. -/
def parseDate (s : String) : Option Date :=
  parseYJ (extractDateStr s)

/-- Modelled from the spec: elementwise datetime parsing of the whole
identifier list, failing on the first identifier whose substring does not
parse (the third-party call raises there). -/
def parseDates : List String → Except String (List Date)
  | [] => .ok []
  | s :: rest =>
    match parseDate s with
    | some d =>
      match parseDates rest with
      | .ok ds => .ok (d :: ds)
      | .error e => .error e
    | none => .error s

/-- Raw three-dimensional numeric container loaded from the archive, with
axes (band, time, column); the 16-bit signed integer values are modelled as
integers indexed by position along each axis. -/
structure Raw3 where
  nb : Nat
  nt : Nat
  nc : Nat
  val : Nat → Nat → Nat → Int

/-- Contents of the compressed archive: the scene identifier strings and
the raw container, exactly the two named entries the notebook reads. -/
structure Archive where
  image_IDs : List String
  Y : Raw3

/-- The hand-authored ordered band label sequence from the notebook. -/
def band_names : List String :=
  ["Blue", "Green", "Red", "NIR", "SWIR1", "SWIR2", "Thermal", "Mask"]

/-- The column label sequence `range(250)` from the notebook. -/
def cols : List Nat := List.range 250

/-- The labeled array: the raw container annotated with the three label
sequences along its three axes. -/
structure DataArray where
  bands : List String
  time : List Date
  col : List Nat
  Y : Raw3

/-- Two-dimensional view remaining after selecting along the band axis:
axes (time, column). -/
structure Plane where
  time : List Date
  col : List Nat
  val : Nat → Nat → Int

/-- One-dimensional view remaining after selecting along the band and
column axes: indexed by time, with its values materialized. -/
structure Series where
  time : List Date
  values : List Int
deriving DecidableEq

/-- Modelled from the spec: the labeled-array library's label lookup along
one axis, an equality match on the label value returning the first matching
position, or nothing when no label matches. -/
def lookupIdx {α : Type} (p : α → Bool) : List α → Option Nat
  | [] => none
  | x :: xs => if p x then some 0 else (lookupIdx p xs).map (· + 1)

/-- Modelled from the spec: construction of the labeled array. The
third-party constructor checks that each label sequence's length equals the
corresponding axis length of the raw container, and fails otherwise; no
check is authored in the notebook itself. -/
def DataArray.make (Y : Raw3) (bands : List String) (time : List Date)
    (col : List Nat) : Except String DataArray :=
  if bands.length = Y.nb ∧ time.length = Y.nt ∧ col.length = Y.nc then
    .ok ⟨bands, time, col, Y⟩
  else
    .error "conflicting sizes for dimension"

/-- Modelled from the spec: selection by band name, a stateless equality
match on the band labels returning the two-dimensional view at the matched
band position, or an error when the label is absent. -/
def DataArray.selBands (da : DataArray) (b : String) : Except String Plane :=
  match lookupIdx (fun x => x == b) da.bands with
  | some i => .ok ⟨da.time, da.col, fun t c => da.Y.val i t c⟩
  | none => .error ("KeyError: " ++ b)

/-- Modelled from the spec: selection by column value on the 2-D view, a
stateless equality match on the column labels returning the one-dimensional
time-indexed view at the matched column position, or an error when the
label is absent. -/
def Plane.selCol (p : Plane) (c : Nat) : Except String Series :=
  match lookupIdx (fun x => x == c) p.col with
  | some j => .ok ⟨p.time, (List.range p.time.length).map (fun t => p.val t j)⟩
  | none => .error "KeyError: col"

/-- The notebook's two-stage query: select by band name, then by column
value. -/
def select (da : DataArray) (b : String) (c : Nat) : Except String Series :=
  match da.selBands b with
  | .ok p => p.selCol c
  | .error e => .error e

/-- The first notebook cell: parse the dates from the loaded identifiers and
construct the labeled array from the raw container and the three label
sequences. Any failure propagates from the third-party calls; no check is
authored in between. -/
def runScript (a : Archive) : Except String DataArray :=
  match parseDates a.image_IDs with
  | .ok ds => DataArray.make a.Y band_names ds cols
  | .error e => .error e

/-- Every entity the notebook ever binds, as left at the end of the run. -/
structure FinalState where
  image_IDs : List String
  Y : Raw3
  dates : List Date
  dat : DataArray
  shown : Series

/-- The whole notebook: load, label, construct, and perform the query
`dat.sel(bands='Blue').sel(col=100)`, recording every bound entity. -/
def runAll (a : Archive) : Except String FinalState :=
  match parseDates a.image_IDs with
  | .error e => .error e
  | .ok ds =>
    match DataArray.make a.Y band_names ds cols with
    | .error e => .error e
    | .ok da =>
      match da.selBands "Blue" with
      | .error e => .error e
      | .ok p =>
        match p.selCol 100 with
        | .error e => .error e
        | .ok s => .ok ⟨a.image_IDs, a.Y, ds, da, s⟩

/-! Helper lemmas about the label lookup. -/

theorem lookupIdx_nil {α : Type} (p : α → Bool) : lookupIdx p [] = none := rfl

theorem lookupIdx_cons {α : Type} (p : α → Bool) (x : α) (xs : List α) :
    lookupIdx p (x :: xs) =
      if p x then some 0 else (lookupIdx p xs).map (· + 1) := rfl

theorem lookupIdx_eq_none_iff {α : Type} (p : α → Bool) (l : List α) :
    lookupIdx p l = none ↔ ∀ x ∈ l, p x = false := by
  induction l with
  | nil => simp [lookupIdx]
  | cons x xs ih =>
    rw [lookupIdx_cons]
    by_cases hx : p x
    · simp [hx]
    · rw [if_neg hx, Option.map_eq_none', ih]
      constructor
      · intro h y hy
        rcases List.mem_cons.mp hy with rfl | hy
        · exact Bool.eq_false_iff.mpr hx
        · exact h y hy
      · intro h y hy
        exact h y (List.mem_cons_of_mem x hy)

theorem lookupIdx_isSome_of_mem {α : Type} [BEq α] [LawfulBEq α]
    {a : α} {l : List α} (h : a ∈ l) :
    ∃ i, lookupIdx (fun x => x == a) l = some i := by
  induction l with
  | nil => simp at h
  | cons x xs ih =>
    rw [lookupIdx_cons]
    by_cases hx : (x == a) = true
    · exact ⟨0, by simp [hx]⟩
    · have hxne : x ≠ a := by simpa using (Bool.eq_false_iff.mpr hx)
      have hmem : a ∈ xs := by
        rcases List.mem_cons.mp h with rfl | hmem
        · exact absurd rfl hxne
        · exact hmem
      obtain ⟨i, hi⟩ := ih hmem
      exact ⟨i + 1, by simp [hx, hi]⟩

theorem lookupIdx_append_of_some {α : Type} (p : α → Bool) {l1 : List α}
    (l2 : List α) {i : Nat} (h : lookupIdx p l1 = some i) :
    lookupIdx p (l1 ++ l2) = some i := by
  induction l1 generalizing i with
  | nil => simp [lookupIdx] at h
  | cons x xs ih =>
    rw [lookupIdx_cons] at h
    rw [List.cons_append, lookupIdx_cons]
    by_cases hx : p x
    · simpa [hx] using h
    · rw [if_neg hx] at h ⊢
      obtain ⟨j, hj, rfl⟩ := Option.map_eq_some'.mp h
      rw [ih hj]
      rfl

theorem lookupIdx_append_of_none {α : Type} (p : α → Bool) {l1 : List α}
    (l2 : List α) (h : lookupIdx p l1 = none) :
    lookupIdx p (l1 ++ l2) = (lookupIdx p l2).map (· + l1.length) := by
  induction l1 with
  | nil => simp [lookupIdx]
  | cons x xs ih =>
    rw [lookupIdx_cons] at h
    rw [List.cons_append, lookupIdx_cons]
    by_cases hx : p x
    · simp [hx] at h
    · rw [if_neg hx] at h ⊢
      have h' : lookupIdx p xs = none := Option.map_eq_none'.mp h
      rw [ih h', Option.map_map, List.length_cons]
      cases lookupIdx p l2 with
      | none => rfl
      | some j =>
        simp only [Option.map_some', Function.comp_apply, Option.some.injEq]
        omega

/-- Equality-match lookup on a contiguous range of integers finds the value
at its own position. -/
theorem lookupIdx_range {n c : Nat} (h : c < n) :
    lookupIdx (fun x => x == c) (List.range n) = some c := by
  induction n with
  | zero => omega
  | succ n ih =>
    rw [List.range_succ]
    by_cases hc : c < n
    · exact lookupIdx_append_of_some _ _ (ih hc)
    · have hcn : c = n := by omega
      subst hcn
      have hnone : lookupIdx (fun x => x == c) (List.range c) = none := by
        rw [lookupIdx_eq_none_iff]
        intro x hx
        have : x < c := List.mem_range.mp hx
        simp [Nat.ne_of_lt this]
      rw [lookupIdx_append_of_none _ _ hnone]
      simp [lookupIdx, List.length_range]

/-- Equality-match lookup on a duplicate-free label list finds each label at
its own position. -/
theorem lookupIdx_getElem_of_nodup {α : Type} [BEq α] [LawfulBEq α]
    {l : List α} (hnd : l.Nodup) (i : Nat) (hi : i < l.length) :
    lookupIdx (fun x => x == l[i]) l = some i := by
  induction l generalizing i with
  | nil => simp at hi
  | cons x xs ih =>
    rcases List.nodup_cons.mp hnd with ⟨hx, hxs⟩
    cases i with
    | zero => simp [lookupIdx_cons]
    | succ i =>
      have hi' : i < xs.length := by simpa using hi
      rw [List.getElem_cons_succ, lookupIdx_cons]
      have hne : (x == xs[i]) = false :=
        beq_eq_false_iff_ne.mpr (fun hEq => hx (hEq ▸ List.getElem_mem hi'))
      rw [if_neg (by rw [hne]; exact Bool.false_ne_true), ih hxs i hi']
      rfl

/-! Helper lemmas about date parsing. -/

theorem parseYJ_some_length {s : String} {d : Date} (h : parseYJ s = some d) :
    s.length = 7 := by
  unfold parseYJ at h
  split at h
  case isTrue hc => exact hc.1
  case isFalse hc => simp at h

theorem parseYJ_some_valid {s : String} {d : Date} (h : parseYJ s = some d) :
    d.valid := by
  unfold parseYJ at h
  split at h
  case isTrue hc =>
    split at h
    case isTrue hj =>
      cases h
      exact hj
    case isFalse hj => simp at h
  case isFalse hc => simp at h

theorem parseDates_ok_length {ids : List String} {ds : List Date}
    (h : parseDates ids = .ok ds) : ds.length = ids.length := by
  induction ids generalizing ds with
  | nil =>
    simp only [parseDates] at h
    cases h
    rfl
  | cons s rest ih =>
    simp only [parseDates] at h
    cases hp : parseDate s with
    | none => rw [hp] at h; simp at h
    | some d =>
      rw [hp] at h
      cases hr : parseDates rest with
      | error e => rw [hr] at h; simp at h
      | ok ds' =>
        rw [hr] at h
        cases h
        simp [ih hr]

theorem parseDates_ok_mem {ids : List String} {ds : List Date}
    (h : parseDates ids = .ok ds) :
    ∀ s ∈ ids, ∃ d, parseDate s = some d := by
  induction ids generalizing ds with
  | nil => simp
  | cons s rest ih =>
    simp only [parseDates] at h
    cases hp : parseDate s with
    | none => rw [hp] at h; simp at h
    | some d =>
      rw [hp] at h
      cases hr : parseDates rest with
      | error e => rw [hr] at h; simp at h
      | ok ds' =>
        intro t ht
        rcases List.mem_cons.mp ht with rfl | ht
        · exact ⟨d, hp⟩
        · exact ih hr t ht

/-! Helper lemmas about construction and selection. -/

theorem make_ok_iff {Y : Raw3} {bs : List String} {ts : List Date}
    {cs : List Nat} {da : DataArray} :
    DataArray.make Y bs ts cs = .ok da ↔
      (bs.length = Y.nb ∧ ts.length = Y.nt ∧ cs.length = Y.nc) ∧
        da = ⟨bs, ts, cs, Y⟩ := by
  unfold DataArray.make
  split
  case isTrue hc => simp [hc, eq_comm]
  case isFalse hc => simp [hc]

theorem make_error_of_mismatch {Y : Raw3} {bs : List String} {ts : List Date}
    {cs : List Nat}
    (h : ¬(bs.length = Y.nb ∧ ts.length = Y.nt ∧ cs.length = Y.nc)) :
    DataArray.make Y bs ts cs = .error "conflicting sizes for dimension" := by
  unfold DataArray.make
  exact if_neg h

theorem runScript_eq_make {a : Archive} {ds : List Date}
    (h : parseDates a.image_IDs = .ok ds) :
    runScript a = DataArray.make a.Y band_names ds cols := by
  unfold runScript
  rw [h]

theorem runScript_ok_elim {a : Archive} {da : DataArray}
    (h : runScript a = .ok da) :
    ∃ ds, parseDates a.image_IDs = .ok ds ∧
      da = ⟨band_names, ds, cols, a.Y⟩ ∧
      band_names.length = a.Y.nb ∧ ds.length = a.Y.nt ∧
        cols.length = a.Y.nc := by
  unfold runScript at h
  cases hp : parseDates a.image_IDs with
  | error e => rw [hp] at h; simp at h
  | ok ds =>
    rw [hp] at h
    rcases make_ok_iff.mp h with ⟨⟨h1, h2, h3⟩, rfl⟩
    exact ⟨ds, rfl, rfl, h1, h2, h3⟩

theorem selBands_ok {da : DataArray} {b : String} {i : Nat}
    (h : lookupIdx (fun x => x == b) da.bands = some i) :
    da.selBands b = .ok ⟨da.time, da.col, fun t c => da.Y.val i t c⟩ := by
  unfold DataArray.selBands
  rw [h]

theorem selBands_error {da : DataArray} {b : String}
    (h : lookupIdx (fun x => x == b) da.bands = none) :
    da.selBands b = .error ("KeyError: " ++ b) := by
  unfold DataArray.selBands
  rw [h]

theorem selCol_ok {p : Plane} {c : Nat} {j : Nat}
    (h : lookupIdx (fun x => x == c) p.col = some j) :
    p.selCol c =
      .ok ⟨p.time, (List.range p.time.length).map (fun t => p.val t j)⟩ := by
  unfold Plane.selCol
  rw [h]

theorem selCol_error {p : Plane} {c : Nat}
    (h : lookupIdx (fun x => x == c) p.col = none) :
    p.selCol c = .error "KeyError: col" := by
  unfold Plane.selCol
  rw [h]

theorem band_names_nodup : band_names.Nodup := by decide

/-! Concrete fixtures used by the witnesses. -/

/-- Concrete raw container whose axis lengths match the authored label
sequences: 8 bands, 2 time steps, 250 columns. -/
def testY : Raw3 :=
  ⟨8, 2, 250, fun b t c => Int.ofNat (b * 1000 + t * 10 + c)⟩

/-- Concrete well-formed archive with two Landsat-style scene
identifiers. -/
def testA : Archive :=
  ⟨["LT50220491993009AAA00", "LT50220491993025AAA00"], testY⟩

/-- The labeled array the script builds from `testA`. -/
def testDa : DataArray :=
  ⟨band_names, [⟨1993, 9⟩, ⟨1993, 25⟩], cols, testY⟩

/-- Concrete archive whose third-axis length (100) does not match the
250 authored column labels. -/
def testBadA : Archive :=
  ⟨["LT50220491993009AAA00"], ⟨8, 1, 100, fun _ _ _ => 0⟩⟩

/-- Concrete archive whose first-axis length (3) does not match the
8 authored band labels. -/
def testBadB : Archive :=
  ⟨["LT50220491993009AAA00"], ⟨3, 1, 250, fun _ _ _ => 0⟩⟩

theorem runScript_testA : runScript testA = .ok testDa := rfl

/-! Claim theorems. -/

/-- C1: the program's sole query is a two-stage label-based selection,
first by band name, then by column value; each stage is a stateless
equality match on the label value along one axis and returns a view of one
lower dimension, so after both stages the result is a one-dimensional
array indexed by time. -/
theorem C1_two_stage_selection (a : Archive) (da : DataArray)
    (h : runScript a = .ok da) :
    ∃ p : Plane, da.selBands "Blue" = .ok p ∧
      p.time = da.time ∧ p.col = da.col ∧
      lookupIdx (fun x => x == "Blue") da.bands = some 0 ∧
      (∀ t c, p.val t c = a.Y.val 0 t c) ∧
      ∃ s : Series, p.selCol 100 = .ok s ∧
        lookupIdx (fun x => x == (100 : Nat)) p.col = some 100 ∧
        s.time = da.time ∧
        s.values = (List.range a.Y.nt).map (fun t => a.Y.val 0 t 100) := by
  obtain ⟨ds, hds, hda, h1, h2, h3⟩ := runScript_ok_elim h
  subst hda
  have hb : lookupIdx (fun x => x == "Blue") band_names = some 0 := rfl
  have hc : lookupIdx (fun x => x == (100 : Nat)) cols = some 100 :=
    lookupIdx_range (by omega)
  refine ⟨_, selBands_ok hb, rfl, rfl, hb, fun t c => rfl,
    _, selCol_ok hc, hc, rfl, ?_⟩
  show (List.range ds.length).map (fun t => a.Y.val 0 t 100) =
    (List.range a.Y.nt).map (fun t => a.Y.val 0 t 100)
  rw [h2]

/-- C1 witness: the selection behavior at the concrete archive `testA`. -/
theorem C1_witness :
    runScript testA = .ok testDa ∧
    (∃ p : Plane, testDa.selBands "Blue" = .ok p ∧
      p.time = testDa.time ∧ p.col = testDa.col ∧
      lookupIdx (fun x => x == "Blue") testDa.bands = some 0 ∧
      (∀ t c, p.val t c = testA.Y.val 0 t c) ∧
      ∃ s : Series, p.selCol 100 = .ok s ∧
        lookupIdx (fun x => x == (100 : Nat)) p.col = some 100 ∧
        s.time = testDa.time ∧
        s.values = (List.range testA.Y.nt).map
          (fun t => testA.Y.val 0 t 100)) :=
  ⟨rfl, C1_two_stage_selection testA testDa rfl⟩

/-- C2: when the label-sequence lengths mismatch the raw container's axis
lengths, no check authored in the notebook detects the mismatch before the
labeled-array construction call; the script's verdict is exactly the
construction call's, the mismatch failure is the construction error, and
for a well-formed archive the count of scene identifiers equals the raw
container's time-axis length. -/
theorem C2_mismatch_fails_only_in_construction (a : Archive) (ds : List Date)
    (hds : parseDates a.image_IDs = .ok ds) :
    runScript a = DataArray.make a.Y band_names ds cols ∧
    (¬(band_names.length = a.Y.nb ∧ ds.length = a.Y.nt ∧
        cols.length = a.Y.nc) →
      runScript a = .error "conflicting sizes for dimension") ∧
    (∀ da, runScript a = .ok da → a.image_IDs.length = a.Y.nt) := by
  refine ⟨runScript_eq_make hds, ?_, ?_⟩
  · intro hmis
    rw [runScript_eq_make hds]
    exact make_error_of_mismatch hmis
  · intro da hok
    obtain ⟨ds', hds', _, _, h2, _⟩ := runScript_ok_elim hok
    rw [hds] at hds'
    injection hds' with hEq
    subst hEq
    rw [← parseDates_ok_length hds]
    exact h2

/-- C2 witness: the concrete mismatched archive `testBadA` reaches the
construction call and fails exactly there. -/
theorem C2_witness :
    parseDates testBadA.image_IDs = .ok [⟨1993, 9⟩] ∧
    (runScript testBadA =
        DataArray.make testBadA.Y band_names [⟨1993, 9⟩] cols ∧
      (¬(band_names.length = testBadA.Y.nb ∧
          ([⟨1993, 9⟩] : List Date).length = testBadA.Y.nt ∧
          cols.length = testBadA.Y.nc) →
        runScript testBadA = .error "conflicting sizes for dimension") ∧
      (∀ da, runScript testBadA = .ok da →
        testBadA.image_IDs.length = testBadA.Y.nt)) :=
  ⟨rfl, C2_mismatch_fails_only_in_construction testBadA [⟨1993, 9⟩] rfl⟩

/-- C3 counterexample: in the loaded identifier sequence of the concrete
archive `testA`, all of whose identifiers do parse, the date substring
extracted at the fixed offset is not 8 characters long, refuting the claim
as stated. -/
theorem C3_counterexample :
    ¬ (∀ s ∈ testA.image_IDs, (extractDateStr s).length = 8 ∧
        (parseDate s).isSome = true) := by
  decide

/-- C3 (amended): for every scene identifier in the loaded identifier
sequence, the date substring extracted from it at the fixed character
offset is 7 characters long and is parsed into a calendar date. -/
theorem C3_seven_char_substring (a : Archive) (ds : List Date)
    (h : parseDates a.image_IDs = .ok ds) :
    ∀ s ∈ a.image_IDs, (extractDateStr s).length = 7 ∧
      ∃ d, parseDate s = some d := by
  intro s hs
  obtain ⟨d, hd⟩ := parseDates_ok_mem h s hs
  have hd' : parseYJ (extractDateStr s) = some d := hd
  exact ⟨parseYJ_some_length hd', d, hd⟩

/-- C3 witness: the substring extraction and parse at the concrete archive
`testA`. -/
theorem C3_witness :
    parseDates testA.image_IDs = .ok [⟨1993, 9⟩, ⟨1993, 25⟩] ∧
    ∀ s ∈ testA.image_IDs, (extractDateStr s).length = 7 ∧
      ∃ d, parseDate s = some d :=
  ⟨rfl, C3_seven_char_substring testA [⟨1993, 9⟩, ⟨1993, 25⟩] rfl⟩

/-- C4: for every scene identifier in a well-formed archive (one the script
accepts), the substring taken at character offset 9 with length 7,
interpreted in year-plus-day-of-year format, parses without error to a
valid calendar date. -/
theorem C4_dates_parse_valid (a : Archive) (da : DataArray)
    (h : runScript a = .ok da) :
    ∀ s ∈ a.image_IDs, ∃ d, parseYJ (extractDateStr s) = some d ∧
      d.valid := by
  obtain ⟨ds, hds, _, _, _, _⟩ := runScript_ok_elim h
  intro s hs
  obtain ⟨d, hd⟩ := parseDates_ok_mem hds s hs
  have hd' : parseYJ (extractDateStr s) = some d := hd
  exact ⟨d, hd', parseYJ_some_valid hd'⟩

/-- C4 witness: the date parse and validity at the concrete archive
`testA`. -/
theorem C4_witness :
    runScript testA = .ok testDa ∧
    ∀ s ∈ testA.image_IDs, ∃ d, parseYJ (extractDateStr s) = some d ∧
      d.valid :=
  ⟨rfl, C4_dates_parse_valid testA testDa rfl⟩

/-- C5: for every band name not among the eight authored band labels,
selection by that band fails with an error, and for every column value
outside the authored column range, selection by that column on the 2-D
view fails with an error; neither returns an empty or default result. -/
theorem C5_unknown_label_errors (da : DataArray)
    (hb : da.bands = band_names) (b : String) (c : Nat)
    (hbm : b ∉ band_names) (hcm : ¬ c < 250) :
    da.selBands b = .error ("KeyError: " ++ b) ∧
    ∀ p : Plane, p.col = cols → p.selCol c = .error "KeyError: col" := by
  constructor
  · apply selBands_error
    rw [hb, lookupIdx_eq_none_iff]
    intro x hx
    exact beq_eq_false_iff_ne.mpr (fun hEq => hbm (hEq ▸ hx))
  · intro p hp
    apply selCol_error
    rw [hp, lookupIdx_eq_none_iff]
    intro x hx
    have hxlt : x < 250 := List.mem_range.mp hx
    exact beq_eq_false_iff_ne.mpr (fun hEq => hcm (hEq ▸ hxlt))

/-- C5 witness: the unknown band name and the out-of-range column value at
the concrete labeled array `testDa`. -/
theorem C5_witness :
    testDa.selBands "Cyan" = .error ("KeyError: " ++ "Cyan") ∧
    ∀ p : Plane, p.col = cols → p.selCol 250 = .error "KeyError: col" :=
  C5_unknown_label_errors testDa rfl "Cyan" 250 (by decide) (by decide)

/-- C6: for every band name among the authored band labels and every column
value among the authored column labels, the two-stage selection succeeds,
and performing it twice on the same labeled array yields bit-identical
results: any two results of the same selection are equal, value list and
time labels included. -/
theorem C6_selection_deterministic (da : DataArray)
    (hbands : da.bands = band_names) (hcols : da.col = cols)
    (b : String) (c : Nat) (hb : b ∈ band_names) (hc : c ∈ cols) :
    (∃ s : Series, select da b c = .ok s) ∧
    ∀ s1 s2, select da b c = .ok s1 → select da b c = .ok s2 →
      s1 = s2 ∧ s1.values = s2.values ∧ s1.time = s2.time := by
  constructor
  · have hbm : b ∈ da.bands := by rw [hbands]; exact hb
    have hcm : c ∈ da.col := by rw [hcols]; exact hc
    obtain ⟨i, hi⟩ := lookupIdx_isSome_of_mem hbm
    obtain ⟨j, hj⟩ := lookupIdx_isSome_of_mem hcm
    have hsel : select da b c =
        Plane.selCol ⟨da.time, da.col, fun t c2 => da.Y.val i t c2⟩ c := by
      unfold select
      rw [selBands_ok hi]
    exact ⟨_, by rw [hsel]; exact selCol_ok hj⟩
  · intro s1 s2 h1 h2
    rw [h1] at h2
    injection h2 with hEq
    exact ⟨hEq, by rw [hEq], by rw [hEq]⟩

/-- C6 witness: the repeated selection of band Red and column 3 at the
concrete labeled array `testDa`. -/
theorem C6_witness :
    ((∃ s : Series, select testDa "Red" 3 = .ok s) ∧
    ∀ s1 s2, select testDa "Red" 3 = .ok s1 →
      select testDa "Red" 3 = .ok s2 →
      s1 = s2 ∧ s1.values = s2.values ∧ s1.time = s2.time) :=
  C6_selection_deterministic testDa rfl rfl "Red" 3 (by decide)
    (by decide)

/-- C7: the column label sequence supplied to the labeled-array
construction is exactly the contiguous integer range 0..249 — 250 values,
the i-th being i, pairwise increasing — and no authored code verifies that
this length matches the container's third-axis length: once the dates
parse, the script's verdict is exactly the construction call's. -/
theorem C7_cols_contiguous_range :
    cols = List.range 250 ∧ cols.length = 250 ∧
    (∀ i (hi : i < cols.length), cols[i] = i) ∧
    List.Pairwise (· < ·) cols ∧
    ∀ a ds, parseDates a.image_IDs = .ok ds →
      runScript a = DataArray.make a.Y band_names ds cols :=
  ⟨rfl, by decide, fun i hi => List.getElem_range i hi,
    List.pairwise_lt_range 250, fun a ds h => runScript_eq_make h⟩

/-- C7 witness: the column labels at position 100 and the pass-through to
the construction call at the concrete mismatched archive `testBadA`. -/
theorem C7_witness :
    cols.get ⟨100, by decide⟩ = 100 ∧
    (parseDates testBadA.image_IDs = .ok [⟨1993, 9⟩] ∧
      runScript testBadA =
        DataArray.make testBadA.Y band_names [⟨1993, 9⟩] cols) :=
  ⟨C7_cols_contiguous_range.2.2.1 100 (by decide),
    rfl, C7_cols_contiguous_range.2.2.2.2 testBadA [⟨1993, 9⟩] rfl⟩

/-- C8: the band label sequence is the fixed, hand-authored ordered
sequence of exactly 8 names Blue, Green, Red, NIR, SWIR1, SWIR2, Thermal,
Mask, and no validation ties this count to the container's actual
first-axis length: once the dates parse, the script's verdict is exactly
the construction call's. -/
theorem C8_band_names_fixed :
    band_names =
      ["Blue", "Green", "Red", "NIR", "SWIR1", "SWIR2", "Thermal",
        "Mask"] ∧
    band_names.length = 8 ∧
    ∀ a ds, parseDates a.image_IDs = .ok ds →
      runScript a = DataArray.make a.Y band_names ds cols :=
  ⟨rfl, rfl, fun _ _ h => runScript_eq_make h⟩

/-- C8 witness: the pass-through to the construction call at the concrete
archive `testBadB`, whose first-axis length 3 differs from the 8 authored
band labels. -/
theorem C8_witness :
    parseDates testBadB.image_IDs = .ok [⟨1993, 9⟩] ∧
    runScript testBadB =
      DataArray.make testBadB.Y band_names [⟨1993, 9⟩] cols :=
  ⟨rfl, C8_band_names_fixed.2.2 testBadB [⟨1993, 9⟩] rfl⟩

/-- C9: label-based selection agrees with positional indexing: selecting
the band at position i of the band label list and a column value c in
0..249 from the labeled array built by the script returns exactly the
time-indexed values Y[i, :, c] of the raw container. -/
theorem C9_selection_refines_positional (a : Archive) (da : DataArray)
    (h : runScript a = .ok da) (i c : Nat)
    (hi : i < band_names.length) (hc : c < 250) :
    ∃ s : Series, select da band_names[i] c = .ok s ∧
      s.time = da.time ∧
      s.values = (List.range a.Y.nt).map (fun t => a.Y.val i t c) := by
  obtain ⟨ds, hds, hda, h1, h2, h3⟩ := runScript_ok_elim h
  subst hda
  have hbi : lookupIdx (fun x => x == band_names[i]) band_names = some i :=
    lookupIdx_getElem_of_nodup band_names_nodup i hi
  have hcc : lookupIdx (fun x => x == c) cols = some c := lookupIdx_range hc
  have hsel : select ⟨band_names, ds, cols, a.Y⟩ band_names[i] c =
      Plane.selCol ⟨ds, cols, fun t c2 => a.Y.val i t c2⟩ c := by
    unfold select
    rw [selBands_ok hbi]
  refine ⟨_, by rw [hsel]; exact selCol_ok hcc, rfl, ?_⟩
  show (List.range ds.length).map (fun t => a.Y.val i t c) =
    (List.range a.Y.nt).map (fun t => a.Y.val i t c)
  rw [h2]

/-- C9 witness: selecting the band at position 2 (Red) and column 5 from
the labeled array built from the concrete archive `testA`. -/
theorem C9_witness :
    runScript testA = .ok testDa ∧
    (∃ s : Series, select testDa (band_names.get ⟨2, by decide⟩) 5 =
        .ok s ∧
      s.time = testDa.time ∧
      s.values = (List.range testA.Y.nt).map
        (fun t => testA.Y.val 2 t 5)) :=
  ⟨rfl, C9_selection_refines_positional testA testDa rfl 2 5 (by decide)
    (by decide)⟩

/-- C10: the raw numeric container is immutable within the script's scope:
whenever the whole notebook run succeeds, the final bindings hold the
loaded container and identifier list unchanged, and the labeled array
still carries the loaded container and the authored label sequences; every
entity is created once and only read thereafter. -/
theorem C10_no_mutation (a : Archive) (st : FinalState)
    (h : runAll a = .ok st) :
    st.image_IDs = a.image_IDs ∧ st.Y = a.Y ∧
    parseDates a.image_IDs = .ok st.dates ∧
    st.dat.Y = a.Y ∧ st.dat.bands = band_names ∧
    st.dat.time = st.dates ∧ st.dat.col = cols := by
  unfold runAll at h
  split at h
  next e heq => exact Except.noConfusion h
  next ds heq =>
    split at h
    next e2 heq2 => exact Except.noConfusion h
    next da heq2 =>
      split at h
      next e3 heq3 => exact Except.noConfusion h
      next p heq3 =>
        split at h
        next e4 heq4 => exact Except.noConfusion h
        next s heq4 =>
          rcases make_ok_iff.mp heq2 with ⟨⟨h1, h2, h3⟩, rfl⟩
          injection h with hEq
          subst hEq
          exact ⟨rfl, rfl, heq, rfl, rfl, rfl, rfl⟩

/-- Final state of the whole notebook run at the concrete archive
`testA`. -/
def testSt : FinalState :=
  ⟨["LT50220491993009AAA00", "LT50220491993025AAA00"], testY,
    [⟨1993, 9⟩, ⟨1993, 25⟩], testDa,
    ⟨[⟨1993, 9⟩, ⟨1993, 25⟩], [100, 110]⟩⟩

/-- C10 witness: the frame property at the concrete archive `testA`. -/
theorem C10_witness :
    runAll testA = .ok testSt ∧
    (testSt.image_IDs = testA.image_IDs ∧ testSt.Y = testA.Y ∧
      parseDates testA.image_IDs = .ok testSt.dates ∧
      testSt.dat.Y = testA.Y ∧ testSt.dat.bands = band_names ∧
      testSt.dat.time = testSt.dates ∧ testSt.dat.col = cols) :=
  ⟨rfl, C10_no_mutation testA testSt rfl⟩

end DemoXray
